import Mathlib

/-!
# The system tray of minishift: profile tracking, status refresh and dispatch

A shallow embedding of `pkg/minishift/systemtray/systemtray.go`.

* The two package-level maps are finite maps with unique keys (`AList`); a
  `range` over a map visits the entries in the order the list holds them, so a
  statement made for every map covers every iteration order.
* A `*systray.MenuItem` is an `Option Nat`: `none` is the nil pointer, and
  the tray library hands out the next unused number for every item it creates.
* What a function does to the outside world (the tray library, the two
  mutexes, the file system, launched processes) is returned as a list of
  `Event`s in program order.  Every access to one of the two maps is an
  event as well, so that the lock held at the time of the access can be read
  off the list.
* Goroutines started by `go` are collected in the `tasks` field of the state;
  none of them has an exit, so a task is never taken out of that list.
* The answers of the operating system and of the packages that are not part of
  this file (profile listing, host status, path lookup, process launch, file
  operations) are fields of `Env` or arguments.
* Writes to standard output (`fmt.Println`) are left out.
-/

namespace Systemtray

/-- Go's `error`: `none` is nil, `some msg` an error with that message. -/
abbrev GoError := Option String

/-- A `*systray.MenuItem`; `none` is the nil pointer. -/
abbrev MenuItem := Option Nat

/-- The byte slices of package `icon` that the file refers to. -/
inductive Icon
  | TrayIcon
  | Running
  | Stopped
  | DoesNotExist
  deriving DecidableEq, Repr

/-- First constant of the `const` block (iota 0). -/
def START : String := "Start"

/-- Second constant of the `const` block (iota 1). -/
def STOP : String := "Stop"

/-- Third constant of the `const` block (iota 2). -/
def EXIT : String := "Exit"

/-- Fourth constant, `START_PROFILE int = iota`: iota counts every line of the
block, the three string constants included, so it is 3 here. -/
def START_PROFILE : Int := 3

/-- Fifth constant, repeating `int = iota`. -/
def STOP_PROFILE : Int := 4

/-- Sixth constant, repeating `int = iota`. -/
def STOPPED : Int := 5

/-- Seventh constant, repeating `int = iota`. -/
def RUNNING : Int := 6

/-- Eighth constant, repeating `int = iota`. -/
def DOES_NOT_EXIST : Int := 7

/-- Modelled from the spec: the vendored package `libmachine/state` is not among
the sources.  Only the two states the file names are needed; the spec has the
lifecycle manager report the string "Running" for a running profile and calls
the other state Stopped. -/
inductive libmachineState
  | Running
  | Stopped
  deriving DecidableEq, Repr

/-- Modelled from the spec: the `String()` method of a libmachine state (see
`libmachineState`). -/
def libmachineState.String : libmachineState → String
  | .Running => "Running"
  | .Stopped => "Stopped"

/-- The struct `MenuAction`. -/
structure MenuAction where
  start : MenuItem
  stop : MenuItem
  deriving DecidableEq, Repr

/-- A Go `map[string]V`. -/
abbrev GoMap (V : Type) := AList (fun _ : String => V)

/-- The index expression `m[k]` on a map of pointers: the zero value (nil) when
the key is absent. -/
def GoMap.index (m : GoMap MenuItem) (k : String) : MenuItem :=
  match m.lookup k with
  | some v => v
  | none => none

/-- The two mutexes of the package. -/
inductive Mutex
  | submenusLock
  | submenusToMenuItemsLock
  deriving DecidableEq, Repr

/-- The two tracking maps of the package. -/
inductive TrackMap
  | submenus
  | submenusToMenuItems
  deriving DecidableEq, Repr

/-- The goroutines the file starts. -/
inductive Task
  | exitHandler (exit : MenuItem)
  | startStopHandler (iconData : Icon) (submenu : String) (m : MenuItem) (action : Int)
  | addNewProfilesToTray
  | removeDeletedProfilesFromTray
  | updateProfileStatus
  deriving DecidableEq, Repr

/-- The observable actions, in program order. -/
inductive Event
  | Lock (l : Mutex)
  | Unlock (l : Mutex)
  | mapRange (m : TrackMap)
  | mapRead (m : TrackMap) (k : String)
  | mapAssign (m : TrackMap) (k : String)
  | mapDelete (m : TrackMap) (k : String)
  | SetIcon (i : Icon)
  | AddSeparator
  | AddMenuItem (title : String) (item : MenuItem)
  | AddSubMenu (title : String) (item : MenuItem)
  | AddSubMenuItem (parent : MenuItem) (title : String) (item : MenuItem)
  | Hide (item : MenuItem)
  | AddBitmap (item : MenuItem) (i : Icon)
  | Create (path : String)
  | WriteString (path : String) (s : String)
  | Chmod (path : String) (mode : Nat)
  | Run (cmd : String) (args : List String)
  deriving DecidableEq, Repr

/-- The package-level variables, the allocator of the tray library and the
goroutines started so far. -/
structure State where
  submenus : GoMap MenuItem
  submenusToMenuItems : GoMap MenuAction
  profiles : List String
  nextItem : Nat
  tasks : List Task

/-- The state at program start: `make` gives two empty maps, no goroutine runs,
and `n` is the next number the tray library will hand out. -/
def initState (n : Nat) : State :=
  { submenus := ∅, submenusToMenuItems := ∅, profiles := [], nextItem := n, tasks := [] }

/-- What the surroundings answer. -/
structure Env where
  /-- Value of `runtime.GOOS`. -/
  GOOS : String
  /-- The `-v` level of glog; `glog.V(n)` holds when `n` is at most this level. -/
  verbosity : Nat
  /-- Result of `os.CurrentExecutable()`. -/
  CurrentExecutable : String × GoError
  /-- Result of `exec.LookPath(file)`. -/
  LookPath : String → String × GoError
  /-- Result of `exec.Command(name, args...).Run()`. -/
  Run : String → List String → GoError
  /-- Result of `goos.TempDir()`. -/
  TempDir : String
  /-- Result of `filepath.Join(dir, file)`. -/
  Join : String → String → String
  /-- Result of `fmt.Sprintf(format)` without arguments. -/
  Sprintf : String → String
  /-- Error result of `goos.Create(path)`. -/
  Create : String → GoError
  /-- Error result of `f.WriteString(s)` on the file created at `path`. -/
  WriteString : String → String → GoError
  /-- Error result of `f.Chmod(mode)` on the file created at `path`. -/
  Chmod : String → Nat → GoError
  /-- Result of `cluster.GetHostStatus(api, profileName)`. -/
  GetHostStatus : String → String × GoError

/-- The test `glog.V(level)`. -/
def glogV (env : Env) (level : Nat) : Bool :=
  decide (level ≤ env.verbosity)

/-- The function `getStatus`. -/
def getStatus (env : Env) (profileName : String) : Int :=
  match env.GetHostStatus profileName with
  | (_, some _) => DOES_NOT_EXIST
  | (vmStatus, none) =>
    if vmStatus = libmachineState.Running.String then RUNNING
    else if vmStatus = libmachineState.Stopped.String then STOPPED
    else 0

/-- A `for ... range` loop: `onNext` is what asking the ranged-over value for
its next element does (nothing for a slice, a `mapRange` for a map), also when
the answer is that none is left. -/
def forRange {σ α : Type} (onNext : List Event) (body : σ → α → σ × List Event) :
    List α → σ → σ × List Event
  | [], s => (s, onNext)
  | a :: rest, s =>
    let r1 := body s a
    let r2 := forRange onNext body rest r1.1
    (r2.1, onNext ++ r1.2 ++ r2.2)

/-- Body of the `for k, v := range submenus` loop of `updateProfileStatus`. -/
def updateProfileStatusBody (env : Env) (s : State) (e : (_ : String) × MenuItem) :
    State × List Event :=
  let status := getStatus env e.1
  (s,
    (if status = DOES_NOT_EXIST then [Event.AddBitmap e.2 Icon.DoesNotExist] else []) ++
    (if status = RUNNING then [Event.AddBitmap e.2 Icon.Running] else []) ++
    (if status = STOPPED then [Event.AddBitmap e.2 Icon.Stopped] else []))

/-- One pass of the endless loop of `updateProfileStatus` (after the sleep). -/
def updateProfileStatus (env : Env) (s : State) : State × List Event :=
  let r := forRange [Event.mapRange TrackMap.submenus] (updateProfileStatusBody env)
    s.submenus.entries s
  (r.1, [Event.Lock Mutex.submenusLock] ++ r.2 ++ [Event.Unlock Mutex.submenusLock])

/-- Body of the `for _, profile := range newProfilesList` loop of
`addNewProfilesToTray`. -/
def addNewProfilesToTrayBody (s : State) (profile : String) : State × List Event :=
  if profile ∈ s.submenus then
    (s, [Event.Lock Mutex.submenusLock, Event.mapRead TrackMap.submenus profile,
         Event.Unlock Mutex.submenusLock])
  else
    let submenu : MenuItem := some s.nextItem
    let startMenu : MenuItem := some (s.nextItem + 1)
    let stopMenu : MenuItem := some (s.nextItem + 2)
    let ma : MenuAction := { start := startMenu, stop := stopMenu }
    ({ s with
        submenus := s.submenus.insert profile submenu
        submenusToMenuItems := s.submenusToMenuItems.insert profile ma
        nextItem := s.nextItem + 3
        tasks := s.tasks ++
          [Task.startStopHandler Icon.Running profile ma.start START_PROFILE,
           Task.startStopHandler Icon.Stopped profile ma.stop STOP_PROFILE] },
     [Event.Lock Mutex.submenusLock, Event.mapRead TrackMap.submenus profile,
      Event.AddSubMenu profile submenu, Event.mapAssign TrackMap.submenus profile,
      Event.Unlock Mutex.submenusLock,
      Event.AddSubMenuItem submenu START startMenu,
      Event.AddSubMenuItem submenu STOP stopMenu,
      Event.Lock Mutex.submenusToMenuItemsLock,
      Event.mapAssign TrackMap.submenusToMenuItems profile,
      Event.Unlock Mutex.submenusToMenuItemsLock])

/-- One pass of the endless loop of `addNewProfilesToTray` (after the sleep);
`newProfilesList` is what `profile.GetProfileList()` returned. -/
def addNewProfilesToTray (newProfilesList : List String) (s : State) : State × List Event :=
  forRange [] addNewProfilesToTrayBody newProfilesList s

/-- Modelled from the spec: `slice.ItemExists` of `pkg/util/slice` is not among
the sources.  The spec has the remove loop act on a tracked profile "absent
from the fresh listing", so the first result is membership in the slice; the
second result, which the caller discards, is left out. -/
def ItemExists (slice : List String) (item : String) : Bool :=
  decide (item ∈ slice)

/-- Body of the `for k := range submenus` loop of
`removeDeletedProfilesFromTray`. -/
def removeDeletedProfilesFromTrayBody (newProfileList : List String) (s : State)
    (k : String) : State × List Event :=
  if ItemExists newProfileList k then
    (s, [Event.Lock Mutex.submenusLock, Event.Unlock Mutex.submenusLock])
  else
    let s1 : State := { s with submenus := s.submenus.erase k }
    let ev1 : List Event :=
      [Event.Lock Mutex.submenusLock, Event.mapRead TrackMap.submenus k,
       Event.Hide (s.submenus.index k), Event.mapDelete TrackMap.submenus k,
       Event.Unlock Mutex.submenusLock,
       Event.mapRead TrackMap.submenusToMenuItems k]
    if k ∈ s.submenusToMenuItems then
      ({ s1 with submenusToMenuItems := s.submenusToMenuItems.erase k },
       ev1 ++ [Event.Lock Mutex.submenusToMenuItemsLock,
               Event.mapDelete TrackMap.submenusToMenuItems k,
               Event.Unlock Mutex.submenusToMenuItemsLock])
    else (s1, ev1)

/-- One pass of the endless loop of `removeDeletedProfilesFromTray` (after the
sleep).  The body deletes no key but the one it is visiting, so the loop visits
the keys the map has when the loop starts. -/
def removeDeletedProfilesFromTray (newProfileList : List String) (s : State) :
    State × List Event :=
  forRange [Event.mapRange TrackMap.submenus]
    (removeDeletedProfilesFromTrayBody newProfileList) s.submenus.keys s

/-- Body of the `for _, profile := range profiles` loop of `OnReady`. -/
def OnReadyBody (s : State) (profile : String) : State × List Event :=
  let submenu : MenuItem := some s.nextItem
  let startMenu : MenuItem := some (s.nextItem + 1)
  let stopMenu : MenuItem := some (s.nextItem + 2)
  ({ s with
      submenus := s.submenus.insert profile submenu
      submenusToMenuItems :=
        s.submenusToMenuItems.insert profile { start := startMenu, stop := stopMenu }
      nextItem := s.nextItem + 3 },
   [Event.AddSubMenu profile submenu,
    Event.AddSubMenuItem submenu START startMenu,
    Event.AddSubMenuItem submenu STOP stopMenu,
    Event.mapAssign TrackMap.submenus profile,
    Event.mapAssign TrackMap.submenusToMenuItems profile])

/-- Body of the `for k, v := range submenusToMenuItems` loop of `OnReady`. -/
def OnReadyHandlers (s : State) (e : (_ : String) × MenuAction) : State × List Event :=
  ({ s with
      tasks := s.tasks ++
        [Task.startStopHandler Icon.Running e.1 e.2.start START_PROFILE,
         Task.startStopHandler Icon.Stopped e.1 e.2.stop STOP_PROFILE] }, [])

/-- The function `OnReady`; `profileList` is what `profile.GetProfileList()`
returned. -/
def OnReady (profileList : List String) (s : State) : State × List Event :=
  let exit : MenuItem := some s.nextItem
  let s0 : State := { s with nextItem := s.nextItem + 1, profiles := profileList }
  let r1 := forRange [] OnReadyBody s0.profiles s0
  let s1 : State := { r1.1 with tasks := r1.1.tasks ++ [Task.exitHandler exit] }
  let r2 := forRange [Event.mapRange TrackMap.submenusToMenuItems] OnReadyHandlers
    s1.submenusToMenuItems.entries s1
  ({ r2.1 with
      tasks := r2.1.tasks ++
        [Task.addNewProfilesToTray, Task.removeDeletedProfilesFromTray,
         Task.updateProfileStatus] },
   [Event.SetIcon Icon.TrayIcon, Event.AddMenuItem EXIT exit, Event.AddSeparator]
     ++ r1.2 ++ r2.2)

/-- The launch at the end of both platform branches of `stopProfile` and
`startProfile`: `exec.LookPath(shell)`, the return under `glog.V(3)` when the
lookup failed, then `exec.Command(cmd, args...).Run()`. -/
def lookPathAndRun (env : Env) (shell : String) (args : List String) :
    GoError × List Event :=
  match env.LookPath shell with
  | (cmd, some err) =>
    if glogV env 3 then (some err, [])
    else (env.Run cmd args, [Event.Run cmd args])
  | (cmd, none) => (env.Run cmd args, [Event.Run cmd args])

/-- The darwin branch of `stopProfile` and `startProfile`, which differ in the
word of the command and in the name of the script file. -/
def darwinLaunch (env : Env) (commandString : String) (fileName : String) :
    GoError × List Event :=
  let stopCommandString := env.Sprintf commandString
  let stopFilePath := env.Join env.TempDir fileName
  match env.Create stopFilePath with
  | some err => (some err, [Event.Create stopFilePath])
  | none =>
    match env.WriteString stopFilePath stopCommandString with
    | some err =>
      (some err, [Event.Create stopFilePath, Event.WriteString stopFilePath stopCommandString])
    | none =>
      match env.Chmod stopFilePath 0o744 with
      | some err =>
        (some err, [Event.Create stopFilePath,
                    Event.WriteString stopFilePath stopCommandString,
                    Event.Chmod stopFilePath 0o744])
      | none =>
        let r := lookPathAndRun env "open" ["-F", "-a", "Terminal.app", stopFilePath]
        (r.1, [Event.Create stopFilePath,
               Event.WriteString stopFilePath stopCommandString,
               Event.Chmod stopFilePath 0o744] ++ r.2)

/-- The function `stopProfile`. -/
def stopProfile (env : Env) (profileName : String) : GoError × List Event :=
  let minishiftBinary := env.CurrentExecutable.1
  if env.GOOS = "windows" then
    lookPathAndRun env "cmd.exe" ["/C", "start", minishiftBinary, "stop", "--profile", profileName]
  else if env.GOOS = "darwin" then
    darwinLaunch env (minishiftBinary ++ " stop --profile " ++ profileName) "minishift.stop"
  else (none, [])

/-- The function `startProfile`. -/
def startProfile (env : Env) (profileName : String) : GoError × List Event :=
  let minishiftBinary := env.CurrentExecutable.1
  if env.GOOS = "windows" then
    lookPathAndRun env "cmd.exe" ["/C", "start", minishiftBinary, "start", "--profile", profileName]
  else if env.GOOS = "darwin" then
    darwinLaunch env (minishiftBinary ++ " start --profile " ++ profileName) "minishift.start"
  else (none, [])

/-- The `if action == START_PROFILE` statement of `startStopHandler`, which
assigns `err`. -/
def dispatch (env : Env) (action : Int) (submenu : String) : GoError × List Event :=
  if action = START_PROFILE then startProfile env submenu else stopProfile env submenu

/-- One round of the endless loop of `startStopHandler`, from the click received
on `m.OnClickCh()` to the end of the loop body. -/
def startStopHandler (env : Env) (iconData : Icon) (submenu : String) (_m : MenuItem)
    (action : Int) (s : State) : State × List Event :=
  let r := dispatch env action submenu
  match r.1 with
  | none =>
    (s, r.2 ++ [Event.Lock Mutex.submenusLock, Event.mapRead TrackMap.submenus submenu,
                Event.AddBitmap (s.submenus.index submenu) iconData,
                Event.Unlock Mutex.submenusLock])
  | some _ => (s, r.2)

/-- The mutex that belongs to a tracking map. -/
def lockOf : TrackMap → Mutex
  | .submenus => Mutex.submenusLock
  | .submenusToMenuItems => Mutex.submenusToMenuItemsLock

/-- Whether every map access in the events of one task happens while the task
holds the mutex of that map; `held` lists the mutexes held at the start. -/
def lockDisciplined : List Mutex → List Event → Bool
  | _, [] => true
  | held, Event.Lock l :: rest => lockDisciplined (l :: held) rest
  | held, Event.Unlock l :: rest => lockDisciplined (held.erase l) rest
  | held, Event.mapRange m :: rest => held.contains (lockOf m) && lockDisciplined held rest
  | held, Event.mapRead m _ :: rest => held.contains (lockOf m) && lockDisciplined held rest
  | held, Event.mapAssign m _ :: rest => held.contains (lockOf m) && lockDisciplined held rest
  | held, Event.mapDelete m _ :: rest => held.contains (lockOf m) && lockDisciplined held rest
  | held, _ :: rest => lockDisciplined held rest

/-- The mutexes a task holds after the events, when it held `held` before. -/
def heldAfter : List Mutex → List Event → List Mutex
  | held, [] => held
  | held, Event.Lock l :: rest => heldAfter (l :: held) rest
  | held, Event.Unlock l :: rest => heldAfter (held.erase l) rest
  | held, _ :: rest => heldAfter held rest

/-- Every profile that is a key of submenus has its two click handlers among
the started tasks. -/
def HandlersLive (s : State) : Prop :=
  ∀ p, p ∈ s.submenus →
    (∃ m, Task.startStopHandler Icon.Running p m START_PROFILE ∈ s.tasks) ∧
    (∃ m, Task.startStopHandler Icon.Stopped p m STOP_PROFILE ∈ s.tasks)

/-- The states the tray goes through: `OnReady` on the initial state, then
passes of the three periodic loops and rounds of the click handlers it has
started, one at a time. -/
inductive Reachable (env : Env) : State → Prop
  | ready (n : Nat) (profileList : List String) :
      Reachable env (OnReady profileList (initState n)).1
  | add (s : State) (newProfilesList : List String) :
      Reachable env s → Reachable env (addNewProfilesToTray newProfilesList s).1
  | remove (s : State) (newProfileList : List String) :
      Reachable env s → Reachable env (removeDeletedProfilesFromTray newProfileList s).1
  | update (s : State) :
      Reachable env s → Reachable env (updateProfileStatus env s).1
  | click (s : State) (iconData : Icon) (submenu : String) (m : MenuItem) (action : Int) :
      Reachable env s → Task.startStopHandler iconData submenu m action ∈ s.tasks →
      Reachable env (startStopHandler env iconData submenu m action s).1

/-- Modelled from the spec: `profile.GetProfileList` is not among the sources.
The spec's data model gives a profile a name that is a "unique string
identifier", and the Profile Directory Reader lists the known profiles, so what
it returns is a sequence of names in which no name occurs twice. -/
abbrev IsProfileList (l : List String) : Prop := l.Nodup

/-- Whether an event is the launch of a process. -/
def isRun : Event → Bool
  | Event.Run _ _ => true
  | _ => false

/-- Whether an event is an indicator update. -/
def isAddBitmap : Event → Bool
  | Event.AddBitmap _ _ => true
  | _ => false

/-- Whether an event is the creation of an on-screen submenu titled `p`. -/
def isAddSubMenuOf (p : String) : Event → Bool
  | Event.AddSubMenu title _ => decide (title = p)
  | _ => false

/-- Whether a task is a click handler of profile `p` started with `action`. -/
def isHandlerOf (p : String) (action : Int) : Task → Bool
  | Task.startStopHandler _ submenu _ a => decide (submenu = p) && decide (a = action)
  | _ => false

/-- Whether a task is a click handler of profile `p`, whatever its action. -/
def isHandler (p : String) : Task → Bool
  | Task.startStopHandler _ submenu _ _ => decide (submenu = p)
  | _ => false

/-- A concrete environment for evaluating the functions: platform, log level,
the answer of every path lookup, of every launch and of every status query are
given; file operations succeed. -/
def sampleEnv (goos : String) (verbosity : Nat) (lookPath : String × GoError)
    (run : GoError) (status : String × GoError) : Env :=
  { GOOS := goos
    verbosity := verbosity
    CurrentExecutable := ("minishift", none)
    LookPath := fun _ => lookPath
    Run := fun _ _ => run
    TempDir := "/tmp"
    Join := fun d f => d ++ "/" ++ f
    Sprintf := fun f => f
    Create := fun _ => none
    WriteString := fun _ _ => none
    Chmod := fun _ _ => none
    GetHostStatus := fun _ => status }

/-! ## The loop combinator -/

theorem forRange_nil {σ α : Type} (onNext : List Event) (body : σ → α → σ × List Event)
    (s : σ) : forRange onNext body [] s = (s, onNext) := rfl

theorem forRange_cons {σ α : Type} (onNext : List Event) (body : σ → α → σ × List Event)
    (a : α) (rest : List α) (s : σ) :
    forRange onNext body (a :: rest) s =
      ((forRange onNext body rest (body s a).1).1,
       onNext ++ (body s a).2 ++ (forRange onNext body rest (body s a).1).2) := rfl

/-- A loop whose body leaves the state alone leaves the state alone. -/
theorem forRange_state_fixed {σ α : Type} (onNext : List Event)
    (body : σ → α → σ × List Event) (hb : ∀ s a, (body s a).1 = s) (l : List α) (s : σ) :
    (forRange onNext body l s).1 = s := by
  induction l generalizing s with
  | nil => rfl
  | cons a rest ih => rw [forRange_cons]; simp only []; rw [hb, ih]

/-- The events of a loop whose body leaves the state alone: those of asking for
the next element and those of the body on each element. -/
theorem forRange_events_fixed {σ α : Type} (onNext : List Event)
    (body : σ → α → σ × List Event) (hb : ∀ s a, (body s a).1 = s) (l : List α) (s : σ)
    (e : Event) :
    e ∈ (forRange onNext body l s).2 ↔ e ∈ onNext ∨ ∃ a ∈ l, e ∈ (body s a).2 := by
  induction l with
  | nil => simp [forRange_nil]
  | cons a rest ih =>
    rw [forRange_cons]
    simp only [hb, List.mem_append, ih, List.mem_cons, exists_eq_or_imp]
    tauto

/-! ## Status mapping -/

/-- C1: `getStatus` answers DOES_NOT_EXIST whenever the status query returns an
error (whatever string came with it), RUNNING when the query succeeds with the
string of the Running state, STOPPED when it succeeds with the string of the
Stopped state, and its result is the same wherever the query returns the same
(string, error) pair. -/
theorem getStatus_mapping (env : Env) (profileName : String) :
    (∀ vmStatus err, env.GetHostStatus profileName = (vmStatus, some err) →
        getStatus env profileName = DOES_NOT_EXIST) ∧
    (env.GetHostStatus profileName = (libmachineState.Running.String, none) →
        getStatus env profileName = RUNNING) ∧
    (env.GetHostStatus profileName = (libmachineState.Stopped.String, none) →
        getStatus env profileName = STOPPED) ∧
    (∀ (env2 : Env) (profileName2 : String),
        env2.GetHostStatus profileName2 = env.GetHostStatus profileName →
        getStatus env2 profileName2 = getStatus env profileName) := by
  refine ⟨?_, ?_, ?_, ?_⟩
  · intro vmStatus err h
    simp [getStatus, h]
  · intro h
    simp [getStatus, h]
  · intro h
    simp [getStatus, h, libmachineState.String]
  · intro env2 profileName2 h
    simp only [getStatus, h]

/-- C1, at concrete answers: an error with the string "Running" gives
DOES_NOT_EXIST. -/
theorem getStatus_mapping_witness :
    getStatus (sampleEnv "linux" 0 ("", none) none ("Running", some "timeout")) "dev"
      = DOES_NOT_EXIST :=
  (getStatus_mapping (sampleEnv "linux" 0 ("", none) none ("Running", some "timeout")) "dev").1
    "Running" "timeout" rfl

/-- C2, as stated, fails: a successful query with the string "Paused" makes
`getStatus` return 0, which is none of the three codes. -/
theorem getStatus_three_codes_counterexample :
    ¬ (getStatus (sampleEnv "linux" 0 ("", none) none ("Paused", none)) "dev" = RUNNING ∨
       getStatus (sampleEnv "linux" 0 ("", none) none ("Paused", none)) "dev" = STOPPED ∨
       getStatus (sampleEnv "linux" 0 ("", none) none ("Paused", none)) "dev" = DOES_NOT_EXIST) := by
  decide

/-- C2, amended: `getStatus` returns RUNNING, STOPPED, DOES_NOT_EXIST or 0, and
it returns 0 exactly when the query succeeds with a string that is neither that
of the Running state nor that of the Stopped state. -/
theorem getStatus_four_codes (env : Env) (profileName : String) :
    (getStatus env profileName = RUNNING ∨ getStatus env profileName = STOPPED ∨
      getStatus env profileName = DOES_NOT_EXIST ∨ getStatus env profileName = 0) ∧
    (getStatus env profileName = 0 ↔
      (env.GetHostStatus profileName).2 = none ∧
      (env.GetHostStatus profileName).1 ≠ libmachineState.Running.String ∧
      (env.GetHostStatus profileName).1 ≠ libmachineState.Stopped.String) := by
  unfold getStatus
  rcases h : env.GetHostStatus profileName with ⟨vmStatus, _ | err⟩
  · by_cases h1 : vmStatus = libmachineState.Running.String
    · simp [h1, RUNNING]
    · by_cases h2 : vmStatus = libmachineState.Stopped.String
      · simp [h2, STOPPED, libmachineState.String]
      · simp [h1, h2]
  · simp [DOES_NOT_EXIST]

/-! ## Status refresh -/

theorem updateProfileStatusBody_state (env : Env) (s : State) (e : (_ : String) × MenuItem) :
    (updateProfileStatusBody env s e).1 = s := rfl

theorem updateProfileStatus_state (env : Env) (s : State) :
    (updateProfileStatus env s).1 = s := by
  unfold updateProfileStatus
  exact forRange_state_fixed _ _ (updateProfileStatusBody_state env) _ _

/-- The indicator updates of one loop body: at most one, with the icon of the
code. -/
theorem mem_updateProfileStatusBody (env : Env) (s : State) (e : (_ : String) × MenuItem)
    (v : MenuItem) (i : Icon) :
    Event.AddBitmap v i ∈ (updateProfileStatusBody env s e).2 ↔
      v = e.2 ∧ ((getStatus env e.1 = DOES_NOT_EXIST ∧ i = Icon.DoesNotExist) ∨
                 (getStatus env e.1 = RUNNING ∧ i = Icon.Running) ∨
                 (getStatus env e.1 = STOPPED ∧ i = Icon.Stopped)) := by
  unfold updateProfileStatusBody
  by_cases h1 : getStatus env e.1 = DOES_NOT_EXIST <;>
  by_cases h2 : getStatus env e.1 = RUNNING <;>
  by_cases h3 : getStatus env e.1 = STOPPED <;>
  simp [h1, h2, h3] <;> tauto

/-- C3: one pass of `updateProfileStatus` leaves the state, and so the key set
of the tracking map, unchanged.  A successful probe with a string that is
neither the Running nor the Stopped string gives a code different from
DOES_NOT_EXIST, RUNNING and STOPPED, and the loop body then makes no call at
all on the entry.  For a code RUNNING, STOPPED or DOES_NOT_EXIST the loop body
makes exactly one call, AddBitmap with the matching icon, on the entry.  Over
the whole pass, AddBitmap is called on an item with an icon exactly when some
tracked profile has that item as its entry and its probe gave the code of that
icon. -/
theorem updateProfileStatus_pass (env : Env) (s : State) :
    (updateProfileStatus env s).1 = s ∧
    (updateProfileStatus env s).1.submenus.keys = s.submenus.keys ∧
    (∀ (p vmStatus : String) (v : MenuItem),
        env.GetHostStatus p = (vmStatus, none) →
        vmStatus ≠ libmachineState.Running.String →
        vmStatus ≠ libmachineState.Stopped.String →
        getStatus env p ≠ DOES_NOT_EXIST ∧ getStatus env p ≠ RUNNING ∧
        getStatus env p ≠ STOPPED ∧ (updateProfileStatusBody env s ⟨p, v⟩).2 = []) ∧
    (∀ (p : String) (v : MenuItem),
        (getStatus env p = RUNNING →
          (updateProfileStatusBody env s ⟨p, v⟩).2 = [Event.AddBitmap v Icon.Running]) ∧
        (getStatus env p = STOPPED →
          (updateProfileStatusBody env s ⟨p, v⟩).2 = [Event.AddBitmap v Icon.Stopped]) ∧
        (getStatus env p = DOES_NOT_EXIST →
          (updateProfileStatusBody env s ⟨p, v⟩).2 = [Event.AddBitmap v Icon.DoesNotExist])) ∧
    (∀ (v : MenuItem) (i : Icon),
        Event.AddBitmap v i ∈ (updateProfileStatus env s).2 ↔
          ∃ p, s.submenus.lookup p = some v ∧
            ((getStatus env p = DOES_NOT_EXIST ∧ i = Icon.DoesNotExist) ∨
             (getStatus env p = RUNNING ∧ i = Icon.Running) ∨
             (getStatus env p = STOPPED ∧ i = Icon.Stopped))) := by
  refine ⟨updateProfileStatus_state env s, by rw [updateProfileStatus_state], ?_, ?_, ?_⟩
  · intro p vmStatus v h h1 h2
    have h0 : getStatus env p = 0 := by simp [getStatus, h, h1, h2]
    simp [updateProfileStatusBody, h0, DOES_NOT_EXIST, RUNNING, STOPPED]
  · intro p v
    refine ⟨?_, ?_, ?_⟩ <;> intro h <;>
      simp [updateProfileStatusBody, h, DOES_NOT_EXIST, RUNNING, STOPPED]
  · intro v i
    unfold updateProfileStatus
    simp only [List.mem_append, List.mem_singleton, List.mem_cons, List.not_mem_nil,
      forRange_events_fixed _ _ (updateProfileStatusBody_state env), or_false, false_or,
      reduceCtorEq, mem_updateProfileStatusBody]
    constructor
    · rintro ⟨e, he, hv, hc⟩
      refine ⟨e.1, ?_, hc⟩
      subst hv
      exact Option.mem_def.mp (AList.mem_lookup_iff.mpr he)
    · rintro ⟨p, hp, hc⟩
      exact ⟨⟨p, v⟩, AList.mem_lookup_iff.mp (Option.mem_def.mpr hp), rfl, hc⟩

/-- C3, on a map with one profile whose probe succeeds with "Paused": the code
is none of the three and the body makes no call. -/
theorem updateProfileStatus_pass_witness :
    getStatus (sampleEnv "linux" 0 ("", none) none ("Paused", none)) "dev" ≠ DOES_NOT_EXIST ∧
    getStatus (sampleEnv "linux" 0 ("", none) none ("Paused", none)) "dev" ≠ RUNNING ∧
    getStatus (sampleEnv "linux" 0 ("", none) none ("Paused", none)) "dev" ≠ STOPPED ∧
    (updateProfileStatusBody (sampleEnv "linux" 0 ("", none) none ("Paused", none))
      (OnReady ["dev"] (initState 0)).1 ⟨"dev", some 1⟩).2 = [] :=
  (updateProfileStatus_pass (sampleEnv "linux" 0 ("", none) none ("Paused", none))
    (OnReady ["dev"] (initState 0)).1).2.2.1 "dev" "Paused" (some 1) rfl (by decide) (by decide)

/-! ## Add-reconciliation -/

theorem addNewProfilesToTrayBody_tracked (s : State) (profile : String)
    (h : profile ∈ s.submenus) :
    addNewProfilesToTrayBody s profile =
      (s, [Event.Lock Mutex.submenusLock, Event.mapRead TrackMap.submenus profile,
           Event.Unlock Mutex.submenusLock]) := by
  simp [addNewProfilesToTrayBody, h]

theorem mem_submenus_addNewProfilesToTrayBody (s : State) (profile k : String) :
    k ∈ (addNewProfilesToTrayBody s profile).1.submenus ↔ k ∈ s.submenus ∨ k = profile := by
  by_cases h : profile ∈ s.submenus
  · rw [addNewProfilesToTrayBody_tracked s profile h]
    constructor
    · intro hk; exact Or.inl hk
    · rintro (hk | hk)
      · exact hk
      · rw [hk]; exact h
  · simp only [addNewProfilesToTrayBody, h, if_false, AList.mem_insert]
    tauto

theorem mem_submenusToMenuItems_addNewProfilesToTrayBody (s : State) (profile k : String) :
    k ∈ (addNewProfilesToTrayBody s profile).1.submenusToMenuItems ↔
      k ∈ s.submenusToMenuItems ∨ (k = profile ∧ profile ∉ s.submenus) := by
  by_cases h : profile ∈ s.submenus
  · rw [addNewProfilesToTrayBody_tracked s profile h]
    simp [h]
  · simp only [addNewProfilesToTrayBody, h, if_false, AList.mem_insert]
    tauto

theorem mem_submenus_addNewProfilesToTray (l : List String) (s : State) (k : String) :
    k ∈ (addNewProfilesToTray l s).1.submenus ↔ k ∈ s.submenus ∨ k ∈ l := by
  unfold addNewProfilesToTray
  induction l generalizing s with
  | nil => simp [forRange_nil]
  | cons p rest ih =>
    rw [forRange_cons]
    simp only [ih, mem_submenus_addNewProfilesToTrayBody, List.mem_cons]
    tauto

theorem mem_submenusToMenuItems_addNewProfilesToTray (l : List String) (s : State)
    (k : String) :
    k ∈ (addNewProfilesToTray l s).1.submenusToMenuItems ↔
      k ∈ s.submenusToMenuItems ∨ (k ∈ l ∧ k ∉ s.submenus) := by
  unfold addNewProfilesToTray
  induction l generalizing s with
  | nil => simp [forRange_nil]
  | cons p rest ih =>
    rw [forRange_cons]
    simp only [ih, mem_submenus_addNewProfilesToTrayBody,
      mem_submenusToMenuItems_addNewProfilesToTrayBody, List.mem_cons]
    by_cases hkp : k = p
    · subst hkp; tauto
    · tauto

/-- A pass over names that are all tracked changes nothing and only takes the
lock, looks the name up and releases the lock. -/
theorem addNewProfilesToTray_tracked (l : List String) (s : State)
    (h : ∀ p ∈ l, p ∈ s.submenus) :
    (addNewProfilesToTray l s).1 = s ∧
    ∀ e ∈ (addNewProfilesToTray l s).2,
      e = Event.Lock Mutex.submenusLock ∨ e = Event.Unlock Mutex.submenusLock ∨
      ∃ p, e = Event.mapRead TrackMap.submenus p := by
  unfold addNewProfilesToTray
  induction l with
  | nil => simp [forRange_nil]
  | cons p rest ih =>
    have hp : p ∈ s.submenus := h p (List.mem_cons_self p rest)
    have hrest : ∀ q ∈ rest, q ∈ s.submenus := fun q hq => h q (List.mem_cons_of_mem p hq)
    rw [forRange_cons, addNewProfilesToTrayBody_tracked s p hp]
    refine ⟨(ih hrest).1, ?_⟩
    intro e he
    simp only [List.nil_append, List.mem_append, List.mem_cons, List.not_mem_nil,
      or_false] at he
    rcases he with (he | he | he) | he
    · exact Or.inl he
    · exact Or.inr (Or.inr ⟨p, he⟩)
    · exact Or.inr (Or.inl he)
    · exact (ih hrest).2 e he

/-- C4, as stated, fails: from a state where "dev" is a key of submenus but not
of submenusToMenuItems, a pass over the listing ["dev"] skips "dev", which is
then still no key of submenusToMenuItems. -/
theorem addNewProfilesToTray_both_maps_counterexample :
    ¬ (∀ k ∈ ["dev"],
        k ∈ (addNewProfilesToTray ["dev"]
          { submenus := AList.insert "dev" (some 0) ∅, submenusToMenuItems := ∅,
            profiles := [], nextItem := 1, tasks := [] }).1.submenus ∧
        k ∈ (addNewProfilesToTray ["dev"]
          { submenus := AList.insert "dev" (some 0) ∅, submenusToMenuItems := ∅,
            profiles := [], nextItem := 1, tasks := [] }).1.submenusToMenuItems) := by
  decide

/-- C4, amended: after one pass of `addNewProfilesToTray` the key set of
submenus is the old key set united with the names of the listing, and the key
set of submenusToMenuItems is its old key set united with the names of the
listing that were no keys of submenus.  So from a state in which every key of
submenus is a key of submenusToMenuItems, every name of the listing is a key of
both maps afterwards, and in every case every key present before is still
present. -/
theorem addNewProfilesToTray_keys (l : List String) (s : State) :
    (∀ k, k ∈ (addNewProfilesToTray l s).1.submenus ↔ k ∈ s.submenus ∨ k ∈ l) ∧
    (∀ k, k ∈ (addNewProfilesToTray l s).1.submenusToMenuItems ↔
        k ∈ s.submenusToMenuItems ∨ (k ∈ l ∧ k ∉ s.submenus)) ∧
    ((∀ k, k ∈ s.submenus → k ∈ s.submenusToMenuItems) →
      ∀ k, k ∈ (addNewProfilesToTray l s).1.submenusToMenuItems ↔
        k ∈ s.submenusToMenuItems ∨ k ∈ l) := by
  refine ⟨mem_submenus_addNewProfilesToTray l s,
    mem_submenusToMenuItems_addNewProfilesToTray l s, ?_⟩
  intro hinv k
  rw [mem_submenusToMenuItems_addNewProfilesToTray]
  have := hinv k
  tauto

/-- C4, amended, on the empty maps and the listing ["dev", "test"]: "test" is a
key of submenusToMenuItems after the pass. -/
theorem addNewProfilesToTray_keys_witness :
    "test" ∈ (addNewProfilesToTray ["dev", "test"] (initState 0)).1.submenusToMenuItems :=
  ((addNewProfilesToTray_keys ["dev", "test"] (initState 0)).2.2
    (by intro k hk; exact absurd hk (AList.not_mem_empty k)) "test").mpr
    (Or.inr (by decide))

/-- C5: a second pass of `addNewProfilesToTray` over the same listing leaves
the whole state (both maps, the allocator of the tray library and the list of
started tasks) as the first pass left it, and does nothing but take
submenusLock, look a name up in submenus and release the lock: no submenu or
menu item is created and no task is started.  The listing may repeat names.
Within a pass, the body on a name that is a key of submenus leaves the state
unchanged and does only those three things. -/
theorem addNewProfilesToTray_idempotent (l : List String) (s : State) :
    (addNewProfilesToTray l (addNewProfilesToTray l s).1).1 = (addNewProfilesToTray l s).1 ∧
    (addNewProfilesToTray l (addNewProfilesToTray l s).1).1.tasks
      = (addNewProfilesToTray l s).1.tasks ∧
    (∀ e ∈ (addNewProfilesToTray l (addNewProfilesToTray l s).1).2,
      e = Event.Lock Mutex.submenusLock ∨ e = Event.Unlock Mutex.submenusLock ∨
      ∃ p, e = Event.mapRead TrackMap.submenus p) ∧
    (∀ (t : State) (p : String), p ∈ t.submenus →
      addNewProfilesToTrayBody t p =
        (t, [Event.Lock Mutex.submenusLock, Event.mapRead TrackMap.submenus p,
             Event.Unlock Mutex.submenusLock])) := by
  have h : ∀ p ∈ l, p ∈ (addNewProfilesToTray l s).1.submenus := by
    intro p hp
    rw [mem_submenus_addNewProfilesToTray]
    exact Or.inr hp
  have h2 := addNewProfilesToTray_tracked l (addNewProfilesToTray l s).1 h
  refine ⟨h2.1, by rw [h2.1], h2.2, ?_⟩
  intro t p hp
  exact addNewProfilesToTrayBody_tracked t p hp

/-- C5, on a listing that repeats a name: the body on "dev", once "dev" is
tracked, is the lock, the lookup and the unlock. -/
theorem addNewProfilesToTray_idempotent_witness :
    addNewProfilesToTrayBody (addNewProfilesToTray ["dev", "dev"] (initState 0)).1 "dev" =
      ((addNewProfilesToTray ["dev", "dev"] (initState 0)).1,
       [Event.Lock Mutex.submenusLock, Event.mapRead TrackMap.submenus "dev",
        Event.Unlock Mutex.submenusLock]) :=
  (addNewProfilesToTray_idempotent ["dev", "dev"] (initState 0)).2.2.2
    (addNewProfilesToTray ["dev", "dev"] (initState 0)).1 "dev" (by decide)

/-! ## Remove-reconciliation -/

theorem removeDeletedProfilesFromTrayBody_listed (l : List String) (s : State) (k : String)
    (h : k ∈ l) :
    removeDeletedProfilesFromTrayBody l s k =
      (s, [Event.Lock Mutex.submenusLock, Event.Unlock Mutex.submenusLock]) := by
  simp [removeDeletedProfilesFromTrayBody, ItemExists, h]

theorem removeDeletedProfilesFromTrayBody_submenus (l : List String) (s : State) (k : String)
    (h : k ∉ l) :
    (removeDeletedProfilesFromTrayBody l s k).1.submenus = s.submenus.erase k := by
  by_cases h2 : k ∈ s.submenusToMenuItems <;>
    simp [removeDeletedProfilesFromTrayBody, ItemExists, h, h2]

theorem removeDeletedProfilesFromTrayBody_submenusToMenuItems (l : List String) (s : State)
    (k : String) (h : k ∉ l) :
    (removeDeletedProfilesFromTrayBody l s k).1.submenusToMenuItems =
      s.submenusToMenuItems.erase k := by
  by_cases h2 : k ∈ s.submenusToMenuItems
  · simp [removeDeletedProfilesFromTrayBody, ItemExists, h, h2]
  · simp only [removeDeletedProfilesFromTrayBody, ItemExists, h, h2, decide_False, if_false,
      Bool.false_eq_true]
    refine AList.ext ?_
    exact (List.kerase_of_not_mem_keys h2).symm

theorem removeDeletedProfilesFromTrayBody_hide (l : List String) (s : State) (k : String)
    (h : k ∉ l) :
    Event.Hide (s.submenus.index k) ∈ (removeDeletedProfilesFromTrayBody l s k).2 := by
  by_cases h2 : k ∈ s.submenusToMenuItems <;>
    simp [removeDeletedProfilesFromTrayBody, ItemExists, h, h2]

theorem forRange_remove_mem_submenus (l ks : List String) (s : State) (x : String) :
    x ∈ (forRange [Event.mapRange TrackMap.submenus]
          (removeDeletedProfilesFromTrayBody l) ks s).1.submenus ↔
      x ∈ s.submenus ∧ (x ∈ ks → x ∈ l) := by
  induction ks generalizing s with
  | nil => simp [forRange_nil]
  | cons k rest ih =>
    rw [forRange_cons]
    simp only [ih, List.mem_cons]
    by_cases hk : k ∈ l
    · rw [removeDeletedProfilesFromTrayBody_listed l s k hk]
      by_cases hxk : x = k
      · subst hxk; tauto
      · tauto
    · rw [removeDeletedProfilesFromTrayBody_submenus l s k hk, AList.mem_erase]
      by_cases hxk : x = k
      · subst hxk; tauto
      · tauto

theorem forRange_remove_mem_submenusToMenuItems (l ks : List String) (s : State)
    (x : String) :
    x ∈ (forRange [Event.mapRange TrackMap.submenus]
          (removeDeletedProfilesFromTrayBody l) ks s).1.submenusToMenuItems ↔
      x ∈ s.submenusToMenuItems ∧ (x ∈ ks → x ∈ l) := by
  induction ks generalizing s with
  | nil => simp [forRange_nil]
  | cons k rest ih =>
    rw [forRange_cons]
    simp only [ih, List.mem_cons]
    by_cases hk : k ∈ l
    · rw [removeDeletedProfilesFromTrayBody_listed l s k hk]
      by_cases hxk : x = k
      · subst hxk; tauto
      · tauto
    · rw [removeDeletedProfilesFromTrayBody_submenusToMenuItems l s k hk, AList.mem_erase]
      by_cases hxk : x = k
      · subst hxk; tauto
      · tauto

theorem forRange_remove_lookup (l ks : List String) (s : State) (x : String) (hx : x ∈ l) :
    (forRange [Event.mapRange TrackMap.submenus]
        (removeDeletedProfilesFromTrayBody l) ks s).1.submenus.lookup x = s.submenus.lookup x ∧
    (forRange [Event.mapRange TrackMap.submenus]
        (removeDeletedProfilesFromTrayBody l) ks s).1.submenusToMenuItems.lookup x
      = s.submenusToMenuItems.lookup x := by
  induction ks generalizing s with
  | nil => simp [forRange_nil]
  | cons k rest ih =>
    rw [forRange_cons]
    simp only [ih]
    by_cases hk : k ∈ l
    · rw [removeDeletedProfilesFromTrayBody_listed l s k hk]
      exact ⟨rfl, rfl⟩
    · have hxk : x ≠ k := fun h => hk (h ▸ hx)
      rw [removeDeletedProfilesFromTrayBody_submenus l s k hk,
        removeDeletedProfilesFromTrayBody_submenusToMenuItems l s k hk]
      exact ⟨AList.lookup_erase_ne hxk, AList.lookup_erase_ne hxk⟩

theorem forRange_remove_hide (l ks : List String) (s : State) (x : String) (hx : x ∉ l)
    (hks : x ∈ ks) :
    Event.Hide (s.submenus.index x) ∈
      (forRange [Event.mapRange TrackMap.submenus]
        (removeDeletedProfilesFromTrayBody l) ks s).2 := by
  induction ks generalizing s with
  | nil => exact absurd hks (List.not_mem_nil x)
  | cons k rest ih =>
    rw [forRange_cons]
    simp only [List.mem_append]
    by_cases hxk : x = k
    · subst hxk
      exact Or.inl (Or.inr (removeDeletedProfilesFromTrayBody_hide l s x hx))
    · have hrest : x ∈ rest := by
        rcases List.mem_cons.mp hks with h | h
        · exact absurd h hxk
        · exact h
      refine Or.inr ?_
      have h := ih (removeDeletedProfilesFromTrayBody l s k).1 hrest
      have hidx : (removeDeletedProfilesFromTrayBody l s k).1.submenus.index x
          = s.submenus.index x := by
        by_cases hk : k ∈ l
        · rw [removeDeletedProfilesFromTrayBody_listed l s k hk]
        · rw [removeDeletedProfilesFromTrayBody_submenus l s k hk]
          unfold GoMap.index
          rw [AList.lookup_erase_ne hxk]
      rw [hidx] at h
      exact h

/-- After a remove pass the keys of submenus are the old keys that are in the
listing. -/
theorem mem_submenus_removeDeletedProfilesFromTray (l : List String) (s : State)
    (k : String) :
    k ∈ (removeDeletedProfilesFromTray l s).1.submenus ↔ k ∈ s.submenus ∧ k ∈ l := by
  unfold removeDeletedProfilesFromTray
  rw [forRange_remove_mem_submenus, ← AList.mem_keys]
  tauto

/-- C6, as stated, fails: from a state where "old" is a key of
submenusToMenuItems but not of submenus, a pass over the empty listing visits
no key, and "old" is still a key of submenusToMenuItems although the listing
does not contain it. -/
theorem removeDeletedProfilesFromTray_no_stale_key_counterexample :
    ¬ (∀ k, k ∈ (removeDeletedProfilesFromTray []
          { submenus := ∅,
            submenusToMenuItems := AList.insert "old" { start := some 1, stop := some 2 } ∅,
            profiles := [], nextItem := 3, tasks := [] }).1.submenusToMenuItems →
        k ∈ ([] : List String)) := by
  intro h
  exact absurd (h "old" (by decide)) (by decide)

/-- C6, amended: after one pass of `removeDeletedProfilesFromTray` the key set
of submenus is the old key set intersected with the listing; a key of
submenusToMenuItems stays exactly when it is in the listing or was no key of
submenus.  So from a state in which every key of submenusToMenuItems is a key
of submenus, neither map has a key absent from the listing afterwards.  In
every case Hide was called on the submenu of every removed profile, and a
profile of the listing has in both maps the entry it had before. -/
theorem removeDeletedProfilesFromTray_keys (l : List String) (s : State) :
    (∀ k, k ∈ (removeDeletedProfilesFromTray l s).1.submenus ↔ k ∈ s.submenus ∧ k ∈ l) ∧
    (∀ k, k ∈ (removeDeletedProfilesFromTray l s).1.submenusToMenuItems ↔
        k ∈ s.submenusToMenuItems ∧ (k ∈ l ∨ k ∉ s.submenus)) ∧
    ((∀ k, k ∈ s.submenusToMenuItems → k ∈ s.submenus) →
      ∀ k, k ∈ (removeDeletedProfilesFromTray l s).1.submenusToMenuItems ↔
        k ∈ s.submenusToMenuItems ∧ k ∈ l) ∧
    (∀ k, k ∈ s.submenus → k ∉ l →
      Event.Hide (s.submenus.index k) ∈ (removeDeletedProfilesFromTray l s).2) ∧
    (∀ k, k ∈ l →
      (removeDeletedProfilesFromTray l s).1.submenus.lookup k = s.submenus.lookup k ∧
      (removeDeletedProfilesFromTray l s).1.submenusToMenuItems.lookup k
        = s.submenusToMenuItems.lookup k) := by
  refine ⟨mem_submenus_removeDeletedProfilesFromTray l s, ?_, ?_, ?_, ?_⟩ <;>
    unfold removeDeletedProfilesFromTray
  · intro k
    rw [forRange_remove_mem_submenusToMenuItems, ← AList.mem_keys]
    tauto
  · intro hinv k
    rw [forRange_remove_mem_submenusToMenuItems, ← AList.mem_keys]
    have := hinv k
    tauto
  · intro k hk hl
    exact forRange_remove_hide l s.submenus.keys s k hl (AList.mem_keys.mpr hk)
  · intro k hk
    exact forRange_remove_lookup l s.submenus.keys s k hk

/-- C6, amended, after `OnReady` on ["dev", "test"] and a pass over ["test"]:
Hide was called on the submenu of "dev". -/
theorem removeDeletedProfilesFromTray_keys_witness :
    Event.Hide ((OnReady ["dev", "test"] (initState 0)).1.submenus.index "dev") ∈
      (removeDeletedProfilesFromTray ["test"] (OnReady ["dev", "test"] (initState 0)).1).2 :=
  (removeDeletedProfilesFromTray_keys ["test"]
    (OnReady ["dev", "test"] (initState 0)).1).2.2.2.1 "dev" (by decide) (by decide)

/-! ## Startup -/

theorem forRange_OnReadyBody_tasks (l : List String) (s : State) :
    (forRange [] OnReadyBody l s).1.tasks = s.tasks := by
  induction l generalizing s with
  | nil => rfl
  | cons p rest ih => rw [forRange_cons]; simp only [ih]; rfl

theorem forRange_OnReadyBody_mem_submenus (l : List String) (s : State) (k : String) :
    k ∈ (forRange [] OnReadyBody l s).1.submenus ↔ k ∈ s.submenus ∨ k ∈ l := by
  induction l generalizing s with
  | nil => simp [forRange_nil]
  | cons p rest ih =>
    rw [forRange_cons]
    simp only [ih, OnReadyBody, AList.mem_insert, List.mem_cons]
    tauto

theorem forRange_OnReadyBody_mem_submenusToMenuItems (l : List String) (s : State)
    (k : String) :
    k ∈ (forRange [] OnReadyBody l s).1.submenusToMenuItems ↔
      k ∈ s.submenusToMenuItems ∨ k ∈ l := by
  induction l generalizing s with
  | nil => simp [forRange_nil]
  | cons p rest ih =>
    rw [forRange_cons]
    simp only [ih, OnReadyBody, AList.mem_insert, List.mem_cons]
    tauto

theorem forRange_OnReadyBody_countP (l : List String) (s : State) (p : String) :
    (forRange [] OnReadyBody l s).2.countP (isAddSubMenuOf p) = l.count p := by
  induction l generalizing s with
  | nil => simp [forRange_nil]
  | cons q rest ih =>
    rw [forRange_cons]
    simp only [List.nil_append, List.countP_append, ih, List.count_cons]
    by_cases h : q = p
    · simp [OnReadyBody, isAddSubMenuOf, List.countP_cons, h, Nat.add_comm]
    · simp [OnReadyBody, isAddSubMenuOf, List.countP_cons, h]

theorem forRange_OnReadyHandlers_maps (es : List ((_ : String) × MenuAction)) (s : State) :
    (forRange [Event.mapRange TrackMap.submenusToMenuItems] OnReadyHandlers es s).1.submenus
      = s.submenus ∧
    (forRange [Event.mapRange TrackMap.submenusToMenuItems] OnReadyHandlers es s).1.submenusToMenuItems
      = s.submenusToMenuItems := by
  induction es generalizing s with
  | nil => exact ⟨rfl, rfl⟩
  | cons e rest ih => rw [forRange_cons]; simp only [ih]; exact ⟨rfl, rfl⟩

theorem forRange_OnReadyHandlers_events (es : List ((_ : String) × MenuAction)) (s : State)
    (p : String) :
    (forRange [Event.mapRange TrackMap.submenusToMenuItems] OnReadyHandlers es s).2.countP
      (isAddSubMenuOf p) = 0 := by
  induction es generalizing s with
  | nil => simp [forRange_nil, isAddSubMenuOf]
  | cons e rest ih =>
    rw [forRange_cons]
    simp only [List.countP_append, ih]
    simp [OnReadyHandlers, isAddSubMenuOf]

theorem forRange_OnReadyHandlers_start (es : List ((_ : String) × MenuAction)) (s : State)
    (p : String) :
    (forRange [Event.mapRange TrackMap.submenusToMenuItems] OnReadyHandlers es s).1.tasks.countP
      (isHandlerOf p START_PROFILE)
      = s.tasks.countP (isHandlerOf p START_PROFILE) + (es.map Sigma.fst).count p := by
  induction es generalizing s with
  | nil => simp [forRange_nil]
  | cons e rest ih =>
    rw [forRange_cons]
    simp only [ih, List.map_cons, List.count_cons]
    by_cases h : e.1 = p
    · simp [OnReadyHandlers, isHandlerOf, List.countP_cons, h, START_PROFILE, STOP_PROFILE]
      omega
    · simp [OnReadyHandlers, isHandlerOf, List.countP_cons, h]

theorem forRange_OnReadyHandlers_stop (es : List ((_ : String) × MenuAction)) (s : State)
    (p : String) :
    (forRange [Event.mapRange TrackMap.submenusToMenuItems] OnReadyHandlers es s).1.tasks.countP
      (isHandlerOf p STOP_PROFILE)
      = s.tasks.countP (isHandlerOf p STOP_PROFILE) + (es.map Sigma.fst).count p := by
  induction es generalizing s with
  | nil => simp [forRange_nil]
  | cons e rest ih =>
    rw [forRange_cons]
    simp only [ih, List.map_cons, List.count_cons]
    by_cases h : e.1 = p
    · simp [OnReadyHandlers, isHandlerOf, List.countP_cons, h, START_PROFILE, STOP_PROFILE]
      omega
    · simp [OnReadyHandlers, isHandlerOf, List.countP_cons, h]

theorem forRange_OnReadyHandlers_any (es : List ((_ : String) × MenuAction)) (s : State)
    (p : String) :
    (forRange [Event.mapRange TrackMap.submenusToMenuItems] OnReadyHandlers es s).1.tasks.countP
      (isHandler p)
      = s.tasks.countP (isHandler p) + 2 * (es.map Sigma.fst).count p := by
  induction es generalizing s with
  | nil => simp [forRange_nil]
  | cons e rest ih =>
    rw [forRange_cons]
    simp only [ih, List.map_cons, List.count_cons]
    by_cases h : e.1 = p
    · simp [OnReadyHandlers, isHandler, List.countP_cons, h]
      omega
    · simp [OnReadyHandlers, isHandler, List.countP_cons, h]

theorem OnReady_maps (l : List String) (s : State) :
    (OnReady l s).1.submenus =
      (forRange [] OnReadyBody l
        { s with nextItem := s.nextItem + 1, profiles := l }).1.submenus ∧
    (OnReady l s).1.submenusToMenuItems =
      (forRange [] OnReadyBody l
        { s with nextItem := s.nextItem + 1, profiles := l }).1.submenusToMenuItems := by
  simp only [OnReady]
  exact ⟨(forRange_OnReadyHandlers_maps _ _).1, (forRange_OnReadyHandlers_maps _ _).2⟩

theorem mem_submenus_OnReady (l : List String) (n : Nat) (k : String) :
    k ∈ (OnReady l (initState n)).1.submenus ↔ k ∈ l := by
  rw [(OnReady_maps l (initState n)).1, forRange_OnReadyBody_mem_submenus]
  simp [initState]

theorem mem_submenusToMenuItems_OnReady (l : List String) (n : Nat) (k : String) :
    k ∈ (OnReady l (initState n)).1.submenusToMenuItems ↔ k ∈ l := by
  rw [(OnReady_maps l (initState n)).2, forRange_OnReadyBody_mem_submenusToMenuItems]
  simp [initState]

theorem OnReady_countP_events (l : List String) (s : State) (p : String) :
    (OnReady l s).2.countP (isAddSubMenuOf p) = l.count p := by
  simp only [OnReady, List.countP_append, forRange_OnReadyBody_countP,
    forRange_OnReadyHandlers_events]
  simp [isAddSubMenuOf]

theorem OnReady_countP_start (l : List String) (n : Nat) (p : String) :
    (OnReady l (initState n)).1.tasks.countP (isHandlerOf p START_PROFILE)
      = (OnReady l (initState n)).1.submenusToMenuItems.keys.count p := by
  rw [(OnReady_maps l (initState n)).2]
  simp only [OnReady, List.countP_append, forRange_OnReadyHandlers_start,
    forRange_OnReadyBody_tasks]
  simp [isHandlerOf, initState, AList.keys, List.keys]

theorem OnReady_countP_stop (l : List String) (n : Nat) (p : String) :
    (OnReady l (initState n)).1.tasks.countP (isHandlerOf p STOP_PROFILE)
      = (OnReady l (initState n)).1.submenusToMenuItems.keys.count p := by
  rw [(OnReady_maps l (initState n)).2]
  simp only [OnReady, List.countP_append, forRange_OnReadyHandlers_stop,
    forRange_OnReadyBody_tasks]
  simp [isHandlerOf, initState, AList.keys, List.keys]

theorem OnReady_countP_any (l : List String) (n : Nat) (p : String) :
    (OnReady l (initState n)).1.tasks.countP (isHandler p)
      = 2 * (OnReady l (initState n)).1.submenusToMenuItems.keys.count p := by
  rw [(OnReady_maps l (initState n)).2]
  simp only [OnReady, List.countP_append, forRange_OnReadyHandlers_any,
    forRange_OnReadyBody_tasks]
  simp [isHandler, initState, AList.keys, List.keys]

/-- In a map, a key occurs once among the keys. -/
theorem GoMap_count_keys {V : Type} (m : GoMap V) (k : String) :
    m.keys.count k = if k ∈ m then 1 else 0 := by
  by_cases h : k ∈ m
  · rw [if_pos h]
    exact List.count_eq_one_of_mem m.keys_nodup (AList.mem_keys.mpr h)
  · rw [if_neg h]
    exact List.count_eq_zero_of_not_mem (fun hk => h (AList.mem_keys.mp hk))

/-- C7: after `OnReady` from the empty maps, the keys of submenus and of
submenusToMenuItems are exactly the names of the startup sequence, each name
once; for every name of the sequence exactly two click handlers were started,
one with START_PROFILE and one with STOP_PROFILE; for a name outside the
sequence there is no key, no handler and no on-screen submenu; and for a
sequence as the Profile Directory Reader returns it, exactly one on-screen
submenu was created for every name of the sequence. -/
theorem OnReady_entries (l : List String) (n : Nat) :
    (∀ p, p ∈ (OnReady l (initState n)).1.submenus ↔ p ∈ l) ∧
    (∀ p, p ∈ (OnReady l (initState n)).1.submenusToMenuItems ↔ p ∈ l) ∧
    (∀ p, p ∈ l →
      (OnReady l (initState n)).1.submenus.keys.count p = 1 ∧
      (OnReady l (initState n)).1.submenusToMenuItems.keys.count p = 1 ∧
      (OnReady l (initState n)).1.tasks.countP (isHandler p) = 2 ∧
      (OnReady l (initState n)).1.tasks.countP (isHandlerOf p START_PROFILE) = 1 ∧
      (OnReady l (initState n)).1.tasks.countP (isHandlerOf p STOP_PROFILE) = 1) ∧
    (∀ p, p ∉ l →
      (OnReady l (initState n)).1.tasks.countP (isHandler p) = 0 ∧
      (OnReady l (initState n)).2.countP (isAddSubMenuOf p) = 0) ∧
    (IsProfileList l → ∀ p, p ∈ l →
      (OnReady l (initState n)).2.countP (isAddSubMenuOf p) = 1) := by
  refine ⟨mem_submenus_OnReady l n, mem_submenusToMenuItems_OnReady l n, ?_, ?_, ?_⟩
  · intro p hp
    have h1 : p ∈ (OnReady l (initState n)).1.submenus := (mem_submenus_OnReady l n p).mpr hp
    have h2 : p ∈ (OnReady l (initState n)).1.submenusToMenuItems :=
      (mem_submenusToMenuItems_OnReady l n p).mpr hp
    rw [OnReady_countP_any, OnReady_countP_start, OnReady_countP_stop, GoMap_count_keys,
      GoMap_count_keys, if_pos h1, if_pos h2]
    exact ⟨rfl, rfl, rfl, rfl, rfl⟩
  · intro p hp
    have h2 : p ∉ (OnReady l (initState n)).1.submenusToMenuItems :=
      fun h => hp ((mem_submenusToMenuItems_OnReady l n p).mp h)
    rw [OnReady_countP_any, GoMap_count_keys, if_neg h2, OnReady_countP_events]
    exact ⟨rfl, List.count_eq_zero_of_not_mem hp⟩
  · intro hnd p hp
    rw [OnReady_countP_events]
    exact List.count_eq_one_of_mem hnd hp

/-- C7, on the startup sequence ["dev", "test"]: one submenu titled "test" is
created. -/
theorem OnReady_entries_witness :
    (OnReady ["dev", "test"] (initState 0)).2.countP (isAddSubMenuOf "test") = 1 :=
  (OnReady_entries ["dev", "test"] 0).2.2.2.2 (by decide) "test" (by decide)

/-! ## Dispatch -/

/-- The two ways the launch step ends: with the error of the lookup and no
launch, when the lookup failed and `glog.V(3)` holds; with one launch and its
result otherwise. -/
theorem lookPathAndRun_cases (env : Env) (shell : String) (args : List String) :
    ((env.LookPath shell).2 ≠ none ∧ glogV env 3 = true ∧
      (lookPathAndRun env shell args).1 ≠ none ∧ (lookPathAndRun env shell args).2 = []) ∨
    (((env.LookPath shell).2 = none ∨ glogV env 3 = false) ∧
      lookPathAndRun env shell args =
        (env.Run (env.LookPath shell).1 args, [Event.Run (env.LookPath shell).1 args])) := by
  unfold lookPathAndRun
  rcases h : env.LookPath shell with ⟨cmd, _ | err⟩
  · simp
  · by_cases hv : glogV env 3 = true
    · simp [hv]
    · simp [hv]

/-- The events of the launch step: no indicator update, at most one launch, and
the result is that of the launch when there is one. -/
theorem lookPathAndRun_events (env : Env) (shell : String) (args : List String) :
    (lookPathAndRun env shell args).2.countP isAddBitmap = 0 ∧
    (lookPathAndRun env shell args).2.countP isRun ≤ 1 ∧
    (∀ cmd a, Event.Run cmd a ∈ (lookPathAndRun env shell args).2 →
      (lookPathAndRun env shell args).1 = env.Run cmd a) := by
  rcases lookPathAndRun_cases env shell args with ⟨_, _, _, h⟩ | ⟨_, h⟩
  · rw [h]; simp
  · rw [h]
    refine ⟨by simp [isAddBitmap], by simp [isRun], ?_⟩
    intro cmd a hmem
    simp only [List.mem_singleton, Event.Run.injEq] at hmem
    rw [hmem.1, hmem.2]

/-- The two ways the darwin branch ends: with an error of a file operation and
no launch, or with the three file operations followed by the launch step. -/
theorem darwinLaunch_cases (env : Env) (commandString fileName : String) :
    ((darwinLaunch env commandString fileName).1 ≠ none ∧
      (darwinLaunch env commandString fileName).2.countP isRun = 0 ∧
      (darwinLaunch env commandString fileName).2.countP isAddBitmap = 0) ∨
    ((darwinLaunch env commandString fileName).1 =
        (lookPathAndRun env "open"
          ["-F", "-a", "Terminal.app", env.Join env.TempDir fileName]).1 ∧
      (darwinLaunch env commandString fileName).2 =
        [Event.Create (env.Join env.TempDir fileName),
         Event.WriteString (env.Join env.TempDir fileName) (env.Sprintf commandString),
         Event.Chmod (env.Join env.TempDir fileName) 0o744] ++
        (lookPathAndRun env "open"
          ["-F", "-a", "Terminal.app", env.Join env.TempDir fileName]).2) := by
  unfold darwinLaunch
  rcases h1 : env.Create (env.Join env.TempDir fileName) with _ | e1
  · rcases h2 : env.WriteString (env.Join env.TempDir fileName) (env.Sprintf commandString)
      with _ | e2
    · rcases h3 : env.Chmod (env.Join env.TempDir fileName) 0o744 with _ | e3
      · right; simp [h1, h2, h3]
      · left; simp [h1, h2, h3, isRun, isAddBitmap]
    · left; simp [h1, h2, isRun, isAddBitmap]
  · left; simp [h1, isRun, isAddBitmap]

theorem darwinLaunch_events (env : Env) (commandString fileName : String) :
    (darwinLaunch env commandString fileName).2.countP isAddBitmap = 0 ∧
    (darwinLaunch env commandString fileName).2.countP isRun ≤ 1 ∧
    (∀ cmd a, Event.Run cmd a ∈ (darwinLaunch env commandString fileName).2 →
      (darwinLaunch env commandString fileName).1 = env.Run cmd a) := by
  have hl := lookPathAndRun_events env "open"
    ["-F", "-a", "Terminal.app", env.Join env.TempDir fileName]
  rcases darwinLaunch_cases env commandString fileName with ⟨_, h2, h3⟩ | ⟨h1, h2⟩
  · refine ⟨h3, by omega, ?_⟩
    intro cmd a hmem
    have : (darwinLaunch env commandString fileName).2.countP isRun > 0 :=
      List.countP_pos_iff.mpr ⟨_, hmem, rfl⟩
    omega
  · rw [h1, h2]
    refine ⟨?_, ?_, ?_⟩
    · rw [List.countP_append, hl.1]; simp [isAddBitmap]
    · rw [List.countP_append]
      have : List.countP isRun
          [Event.Create (env.Join env.TempDir fileName),
           Event.WriteString (env.Join env.TempDir fileName) (env.Sprintf commandString),
           Event.Chmod (env.Join env.TempDir fileName) 0o744] = 0 := by simp [isRun]
      rw [this]
      have := hl.2.1
      omega
    · intro cmd a hmem
      simp only [List.mem_append, List.mem_cons, List.not_mem_nil, or_false,
        reduceCtorEq, false_or] at hmem
      exact hl.2.2 cmd a hmem

/-- The events of a dispatch: no indicator update, at most one launch, and the
result is that of the launch when there is one. -/
theorem dispatch_events (env : Env) (action : Int) (submenu : String) :
    (dispatch env action submenu).2.countP isAddBitmap = 0 ∧
    (dispatch env action submenu).2.countP isRun ≤ 1 ∧
    (∀ cmd a, Event.Run cmd a ∈ (dispatch env action submenu).2 →
      (dispatch env action submenu).1 = env.Run cmd a) := by
  unfold dispatch startProfile stopProfile
  by_cases ha : action = START_PROFILE <;>
  by_cases hw : env.GOOS = "windows" <;>
  by_cases hd : env.GOOS = "darwin" <;>
  simp only [ha, hw, hd, if_true, if_false] <;>
  first
    | exact lookPathAndRun_events _ _ _
    | exact darwinLaunch_events _ _ _
    | simp

/-- A failed lookup of `cmd.exe` under `glog.V(3)` makes the windows branch
return an error without a launch. -/
theorem dispatch_windows_lookup (env : Env) (action : Int) (submenu : String)
    (hw : env.GOOS = "windows") (hl : (env.LookPath "cmd.exe").2 ≠ none)
    (hv : 3 ≤ env.verbosity) :
    (dispatch env action submenu).1 ≠ none ∧ (dispatch env action submenu).2 = [] := by
  have hg : glogV env 3 = true := by simp [glogV, hv]
  unfold dispatch startProfile stopProfile
  by_cases ha : action = START_PROFILE
  · simp only [ha, hw, if_true]
    rcases lookPathAndRun_cases env "cmd.exe"
      ["/C", "start", env.CurrentExecutable.1, "start", "--profile", submenu]
      with ⟨_, _, h1, h2⟩ | ⟨h, _⟩
    · exact ⟨h1, h2⟩
    · rcases h with h | h
      · exact absurd h hl
      · rw [hg] at h; exact absurd h (by decide)
  · simp only [ha, hw, if_true, if_false]
    rcases lookPathAndRun_cases env "cmd.exe"
      ["/C", "start", env.CurrentExecutable.1, "stop", "--profile", submenu]
      with ⟨_, _, h1, h2⟩ | ⟨h, _⟩
    · exact ⟨h1, h2⟩
    · rcases h with h | h
      · exact absurd h hl
      · rw [hg] at h; exact absurd h (by decide)

/-- A failed lookup of `open` under `glog.V(3)` makes the darwin branch return
an error without a launch (when a file operation has not already done so). -/
theorem darwinLaunch_lookup (env : Env) (commandString fileName : String)
    (hl : (env.LookPath "open").2 ≠ none) (hv : 3 ≤ env.verbosity) :
    (darwinLaunch env commandString fileName).1 ≠ none ∧
    (darwinLaunch env commandString fileName).2.countP isRun = 0 := by
  have hg : glogV env 3 = true := by simp [glogV, hv]
  rcases darwinLaunch_cases env commandString fileName with ⟨h1, h2, _⟩ | ⟨h1, h2⟩
  · exact ⟨h1, h2⟩
  · rcases lookPathAndRun_cases env "open"
      ["-F", "-a", "Terminal.app", env.Join env.TempDir fileName]
      with ⟨_, _, h3, h4⟩ | ⟨h, _⟩
    · rw [h1, h2, h4]
      exact ⟨h3, by simp [isRun]⟩
    · rcases h with h | h
      · exact absurd h hl
      · rw [hg] at h; exact absurd h (by decide)

theorem dispatch_darwin_lookup (env : Env) (action : Int) (submenu : String)
    (hd : env.GOOS = "darwin") (hl : (env.LookPath "open").2 ≠ none)
    (hv : 3 ≤ env.verbosity) :
    (dispatch env action submenu).1 ≠ none ∧
    (dispatch env action submenu).2.countP isRun = 0 := by
  have hw : env.GOOS ≠ "windows" := by rw [hd]; decide
  unfold dispatch startProfile stopProfile
  by_cases ha : action = START_PROFILE
  · simp only [ha, hw, hd, if_true, if_false]
    exact darwinLaunch_lookup env _ _ hl hv
  · simp only [ha, hw, hd, if_true, if_false]
    exact darwinLaunch_lookup env _ _ hl hv

/-- A round whose dispatch returns an error consists of the dispatch alone. -/
theorem startStopHandler_of_error (env : Env) (iconData : Icon) (submenu : String)
    (m : MenuItem) (action : Int) (s : State) (e : String)
    (h : (dispatch env action submenu).1 = some e) :
    startStopHandler env iconData submenu m action s = (s, (dispatch env action submenu).2) := by
  simp only [startStopHandler, h]

/-- A round whose dispatch returns nil goes on to update the indicator of what
`submenus[submenu]` yields, under submenusLock. -/
theorem startStopHandler_of_nil (env : Env) (iconData : Icon) (submenu : String)
    (m : MenuItem) (action : Int) (s : State)
    (h : (dispatch env action submenu).1 = none) :
    startStopHandler env iconData submenu m action s =
      (s, (dispatch env action submenu).2 ++
        [Event.Lock Mutex.submenusLock, Event.mapRead TrackMap.submenus submenu,
         Event.AddBitmap (s.submenus.index submenu) iconData,
         Event.Unlock Mutex.submenusLock]) := by
  simp only [startStopHandler, h]

/-- What the code does in one round of `startStopHandler`, for either action,
any profile name and any log level: when the dispatch returns an error the
state is unchanged and the round consists of the events of the dispatch alone,
with no indicator update; a round launches at most one process; when the
dispatch launched a process its result is the result of that launch; and under
`glog.V(3)` a failed lookup of the launcher shell ends the dispatch with an
error and without a launch. -/
theorem startStopHandler_dispatch_error (env : Env) (iconData : Icon) (submenu : String)
    (m : MenuItem) (action : Int) (s : State) :
    ((dispatch env action submenu).1 ≠ none →
      startStopHandler env iconData submenu m action s = (s, (dispatch env action submenu).2) ∧
      (startStopHandler env iconData submenu m action s).2.countP isAddBitmap = 0) ∧
    (startStopHandler env iconData submenu m action s).2.countP isRun ≤ 1 ∧
    (∀ cmd a, Event.Run cmd a ∈ (dispatch env action submenu).2 →
      (dispatch env action submenu).1 = env.Run cmd a) ∧
    (env.GOOS = "windows" → (env.LookPath "cmd.exe").2 ≠ none → 3 ≤ env.verbosity →
      (dispatch env action submenu).1 ≠ none ∧
      (dispatch env action submenu).2.countP isRun = 0) ∧
    (env.GOOS = "darwin" → (env.LookPath "open").2 ≠ none → 3 ≤ env.verbosity →
      (dispatch env action submenu).1 ≠ none ∧
      (dispatch env action submenu).2.countP isRun = 0) := by
  have hd := dispatch_events env action submenu
  refine ⟨?_, ?_, hd.2.2, ?_, ?_⟩
  · intro herr
    have h : startStopHandler env iconData submenu m action s
        = (s, (dispatch env action submenu).2) := by
      rcases hr : (dispatch env action submenu).1 with _ | e
      · exact absurd hr herr
      · exact startStopHandler_of_error env iconData submenu m action s e hr
    exact ⟨h, by rw [h]; exact hd.1⟩
  · rcases hr : (dispatch env action submenu).1 with _ | e
    · rw [startStopHandler_of_nil env iconData submenu m action s hr]
      simp only [List.countP_append]
      have : List.countP isRun
          [Event.Lock Mutex.submenusLock, Event.mapRead TrackMap.submenus submenu,
           Event.AddBitmap (s.submenus.index submenu) iconData,
           Event.Unlock Mutex.submenusLock] = 0 := by simp [isRun]
      rw [this]
      exact hd.2.1
    · rw [startStopHandler_of_error env iconData submenu m action s e hr]
      exact hd.2.1
  · intro hw hl hv
    have h := dispatch_windows_lookup env action submenu hw hl hv
    exact ⟨h.1, by rw [h.2]; rfl⟩
  · intro hdar hl hv
    exact dispatch_darwin_lookup env action submenu hdar hl hv

/-! ## Lock discipline -/

theorem lockDisciplined_append (held : List Mutex) (a b : List Event) :
    lockDisciplined held (a ++ b) =
      (lockDisciplined held a && lockDisciplined (heldAfter held a) b) := by
  induction a generalizing held with
  | nil => simp [lockDisciplined, heldAfter]
  | cons e rest ih =>
    cases e <;> simp [lockDisciplined, heldAfter, ih, Bool.and_assoc]

theorem heldAfter_append (held : List Mutex) (a b : List Event) :
    heldAfter held (a ++ b) = heldAfter (heldAfter held a) b := by
  induction a generalizing held with
  | nil => simp [heldAfter]
  | cons e rest ih =>
    cases e <;> simp [heldAfter, ih]

/-- The body of the add loop takes the lock of a map around every access to it
and holds no lock at its end. -/
theorem addNewProfilesToTrayBody_lockDisciplined (s : State) (profile : String) :
    lockDisciplined [] (addNewProfilesToTrayBody s profile).2 = true ∧
    heldAfter [] (addNewProfilesToTrayBody s profile).2 = [] := by
  by_cases h : profile ∈ s.submenus
  · rw [addNewProfilesToTrayBody_tracked s profile h]
    exact ⟨rfl, rfl⟩
  · simp only [addNewProfilesToTrayBody, h, if_false]
    exact ⟨rfl, rfl⟩

/-- Every pass of the add loop keeps the lock discipline. -/
theorem addNewProfilesToTray_lockDisciplined (l : List String) (s : State) :
    lockDisciplined [] (addNewProfilesToTray l s).2 = true ∧
    heldAfter [] (addNewProfilesToTray l s).2 = [] := by
  unfold addNewProfilesToTray
  induction l generalizing s with
  | nil => exact ⟨rfl, rfl⟩
  | cons p rest ih =>
    rw [forRange_cons]
    simp only [List.nil_append, lockDisciplined_append, heldAfter_append,
      (addNewProfilesToTrayBody_lockDisciplined s p).1,
      (addNewProfilesToTrayBody_lockDisciplined s p).2, Bool.true_and]
    exact ih _

theorem updateProfileStatusBody_lockDisciplined (env : Env) (s : State)
    (e : (_ : String) × MenuItem) (held : List Mutex) :
    lockDisciplined held (updateProfileStatusBody env s e).2 = true ∧
    heldAfter held (updateProfileStatusBody env s e).2 = held := by
  unfold updateProfileStatusBody
  by_cases h1 : getStatus env e.1 = DOES_NOT_EXIST <;>
  by_cases h2 : getStatus env e.1 = RUNNING <;>
  by_cases h3 : getStatus env e.1 = STOPPED <;>
  simp [h1, h2, h3, lockDisciplined, heldAfter]

theorem lockDisciplined_nil (held : List Mutex) : lockDisciplined held [] = true := by
  cases held <;> rfl

theorem heldAfter_nil (held : List Mutex) : heldAfter held [] = held := by
  cases held <;> rfl

theorem lockDisciplined_mapRange (held : List Mutex) (m : TrackMap) (rest : List Event) :
    lockDisciplined held (Event.mapRange m :: rest) =
      (held.contains (lockOf m) && lockDisciplined held rest) := rfl

theorem heldAfter_mapRange (held : List Mutex) (m : TrackMap) (rest : List Event) :
    heldAfter held (Event.mapRange m :: rest) = heldAfter held rest := rfl

theorem lockDisciplined_Lock (held : List Mutex) (l : Mutex) (rest : List Event) :
    lockDisciplined held (Event.Lock l :: rest) = lockDisciplined (l :: held) rest := rfl

/-- Every pass of the status refresh loop keeps the lock discipline. -/
theorem updateProfileStatus_lockDisciplined (env : Env) (s : State) :
    lockDisciplined [] (updateProfileStatus env s).2 = true := by
  have h : ∀ (es : List ((_ : String) × MenuItem)) (t : State),
      lockDisciplined [Mutex.submenusLock]
        (forRange [Event.mapRange TrackMap.submenus] (updateProfileStatusBody env) es t).2 = true ∧
      heldAfter [Mutex.submenusLock]
        (forRange [Event.mapRange TrackMap.submenus] (updateProfileStatusBody env) es t).2
          = [Mutex.submenusLock] := by
    intro es
    induction es with
    | nil => intro t; exact ⟨rfl, rfl⟩
    | cons e rest ih =>
      intro t
      have hb := updateProfileStatusBody_lockDisciplined env t e [Mutex.submenusLock]
      have hi := ih (updateProfileStatusBody env t e).1
      rw [forRange_cons]
      simp only [List.singleton_append, List.cons_append, List.nil_append,
        lockDisciplined_mapRange, heldAfter_mapRange, lockDisciplined_append, heldAfter_append,
        lockDisciplined_nil, heldAfter_nil, hb.1, hb.2, hi.1, hi.2, Bool.and_true, and_true]
      rfl
  unfold updateProfileStatus
  simp only [List.singleton_append, List.cons_append, List.nil_append, lockDisciplined_Lock,
    lockDisciplined_append, lockDisciplined_nil, heldAfter_nil,
    (h s.submenus.entries s).1, (h s.submenus.entries s).2, Bool.true_and]
  rfl

theorem lookPathAndRun_lockNeutral (env : Env) (shell : String) (args : List String)
    (held : List Mutex) :
    lockDisciplined held (lookPathAndRun env shell args).2 = true ∧
    heldAfter held (lookPathAndRun env shell args).2 = held := by
  rcases lookPathAndRun_cases env shell args with ⟨_, _, _, h⟩ | ⟨_, h⟩
  · rw [h]; exact ⟨lockDisciplined_nil held, heldAfter_nil held⟩
  · rw [h]; simp [lockDisciplined, heldAfter]

theorem darwinLaunch_lockNeutral (env : Env) (commandString fileName : String)
    (held : List Mutex) :
    lockDisciplined held (darwinLaunch env commandString fileName).2 = true ∧
    heldAfter held (darwinLaunch env commandString fileName).2 = held := by
  have hl := lookPathAndRun_lockNeutral env "open"
    ["-F", "-a", "Terminal.app", env.Join env.TempDir fileName] held
  unfold darwinLaunch
  rcases h1 : env.Create (env.Join env.TempDir fileName) with _ | e1
  · rcases h2 : env.WriteString (env.Join env.TempDir fileName) (env.Sprintf commandString)
      with _ | e2
    · rcases h3 : env.Chmod (env.Join env.TempDir fileName) 0o744 with _ | e3
      · simp [h1, h2, h3, lockDisciplined, heldAfter, hl.1, hl.2]
      · simp [h1, h2, h3, lockDisciplined, heldAfter]
    · simp [h1, h2, lockDisciplined, heldAfter]
  · simp [h1, lockDisciplined, heldAfter]

theorem dispatch_lockNeutral (env : Env) (action : Int) (submenu : String)
    (held : List Mutex) :
    lockDisciplined held (dispatch env action submenu).2 = true ∧
    heldAfter held (dispatch env action submenu).2 = held := by
  unfold dispatch startProfile stopProfile
  by_cases ha : action = START_PROFILE <;>
  by_cases hw : env.GOOS = "windows" <;>
  by_cases hd : env.GOOS = "darwin" <;>
  simp only [ha, hw, hd, if_true, if_false] <;>
  first
    | exact lookPathAndRun_lockNeutral _ _ _ _
    | exact darwinLaunch_lockNeutral _ _ _ _
    | exact ⟨lockDisciplined_nil held, heldAfter_nil held⟩

/-- Every round of a click handler keeps the lock discipline. -/
theorem startStopHandler_lockDisciplined (env : Env) (iconData : Icon) (submenu : String)
    (m : MenuItem) (action : Int) (s : State) :
    lockDisciplined [] (startStopHandler env iconData submenu m action s).2 = true := by
  have hd := dispatch_lockNeutral env action submenu []
  rcases hr : (dispatch env action submenu).1 with _ | e
  · rw [startStopHandler_of_nil env iconData submenu m action s hr]
    simp only [lockDisciplined_append, hd.1, hd.2, Bool.true_and]
    rfl
  · rw [startStopHandler_of_error env iconData submenu m action s e hr]
    exact hd.1

/-- No pass of the remove loop keeps the lock discipline: the first thing it
does is to ask submenus for a key, with no lock held. -/
theorem removeDeletedProfilesFromTray_never_lockDisciplined (l : List String) (s : State) :
    lockDisciplined [] (removeDeletedProfilesFromTray l s).2 = false := by
  unfold removeDeletedProfilesFromTray
  cases s.submenus.keys with
  | nil => rfl
  | cons k rest => rw [forRange_cons]; rfl

/-- The body of the remove loop on a key that is not in the listing reads
submenusToMenuItems without holding its lock. -/
theorem removeDeletedProfilesFromTrayBody_not_lockDisciplined (l : List String) (s : State)
    (k : String) (h : k ∉ l) :
    lockDisciplined [] (removeDeletedProfilesFromTrayBody l s k).2 = false := by
  by_cases h2 : k ∈ s.submenusToMenuItems <;>
    simp [removeDeletedProfilesFromTrayBody, ItemExists, h, h2, lockDisciplined, lockOf]

/-- C9: `removeDeletedProfilesFromTray` does not keep the lock discipline.  On
the state after `OnReady` with the one profile "dev", a pass over the empty
listing asks submenus for its next key before it takes submenusLock and after
it has released it, and reads submenusToMenuItems["dev"] without holding
submenusToMenuItemsLock. -/
theorem removeDeletedProfilesFromTray_not_lockDisciplined :
    (removeDeletedProfilesFromTray [] (OnReady ["dev"] (initState 0)).1).2 =
      [Event.mapRange TrackMap.submenus,
       Event.Lock Mutex.submenusLock, Event.mapRead TrackMap.submenus "dev",
       Event.Hide (some 1), Event.mapDelete TrackMap.submenus "dev",
       Event.Unlock Mutex.submenusLock,
       Event.mapRead TrackMap.submenusToMenuItems "dev",
       Event.Lock Mutex.submenusToMenuItemsLock,
       Event.mapDelete TrackMap.submenusToMenuItems "dev",
       Event.Unlock Mutex.submenusToMenuItemsLock,
       Event.mapRange TrackMap.submenus] ∧
    lockDisciplined []
      (removeDeletedProfilesFromTray [] (OnReady ["dev"] (initState 0)).1).2 = false ∧
    lockDisciplined []
      (removeDeletedProfilesFromTrayBody [] (OnReady ["dev"] (initState 0)).1 "dev").2
        = false := by
  decide

/-! ## Click handlers and removed profiles -/

theorem forRange_OnReadyHandlers_tasks_mono (es : List ((_ : String) × MenuAction))
    (s : State) (t : Task) (h : t ∈ s.tasks) :
    t ∈ (forRange [Event.mapRange TrackMap.submenusToMenuItems] OnReadyHandlers es s).1.tasks := by
  induction es generalizing s with
  | nil => exact h
  | cons e rest ih =>
    rw [forRange_cons]
    exact ih _ (List.mem_append_left _ h)

theorem forRange_OnReadyHandlers_started (es : List ((_ : String) × MenuAction))
    (s : State) (e : (_ : String) × MenuAction) (h : e ∈ es) :
    Task.startStopHandler Icon.Running e.1 e.2.start START_PROFILE ∈
      (forRange [Event.mapRange TrackMap.submenusToMenuItems] OnReadyHandlers es s).1.tasks ∧
    Task.startStopHandler Icon.Stopped e.1 e.2.stop STOP_PROFILE ∈
      (forRange [Event.mapRange TrackMap.submenusToMenuItems] OnReadyHandlers es s).1.tasks := by
  induction es generalizing s with
  | nil => exact absurd h (List.not_mem_nil e)
  | cons e2 rest ih =>
    rw [forRange_cons]
    rcases List.mem_cons.mp h with h | h
    · subst h
      constructor
      · exact forRange_OnReadyHandlers_tasks_mono rest _ _ (by simp [OnReadyHandlers])
      · exact forRange_OnReadyHandlers_tasks_mono rest _ _ (by simp [OnReadyHandlers])
    · exact ih _ h

theorem OnReady_handlersLive (l : List String) (n : Nat) :
    HandlersLive (OnReady l (initState n)).1 := by
  intro p hp
  have hp2 : p ∈ (OnReady l (initState n)).1.submenusToMenuItems :=
    (mem_submenusToMenuItems_OnReady l n p).mpr ((mem_submenus_OnReady l n p).mp hp)
  rw [(OnReady_maps l (initState n)).2] at hp2
  obtain ⟨ma, hma⟩ := Option.isSome_iff_exists.mp (AList.lookup_isSome.mpr hp2)
  have hmem := AList.mem_lookup_iff.mp (Option.mem_def.mpr hma)
  have h := forRange_OnReadyHandlers_started _
    { (forRange [] OnReadyBody l
        { initState n with nextItem := (initState n).nextItem + 1, profiles := l }).1 with
      tasks := (forRange [] OnReadyBody l
        { initState n with nextItem := (initState n).nextItem + 1, profiles := l }).1.tasks
        ++ [Task.exitHandler (some (initState n).nextItem)] } ⟨p, ma⟩ hmem
  exact ⟨⟨ma.start, List.mem_append_left _ h.1⟩, ⟨ma.stop, List.mem_append_left _ h.2⟩⟩

theorem addNewProfilesToTrayBody_handlersLive (s : State) (profile : String)
    (h : HandlersLive s) : HandlersLive (addNewProfilesToTrayBody s profile).1 := by
  by_cases hp : profile ∈ s.submenus
  · rw [addNewProfilesToTrayBody_tracked s profile hp]
    exact h
  · intro k hk
    rw [mem_submenus_addNewProfilesToTrayBody] at hk
    simp only [addNewProfilesToTrayBody, hp, if_false]
    rcases hk with hk | hk
    · obtain ⟨⟨m1, h1⟩, ⟨m2, h2⟩⟩ := h k hk
      exact ⟨⟨m1, List.mem_append_left _ h1⟩, ⟨m2, List.mem_append_left _ h2⟩⟩
    · subst hk
      exact ⟨⟨some (s.nextItem + 1), by simp⟩, ⟨some (s.nextItem + 2), by simp⟩⟩

theorem addNewProfilesToTray_handlersLive (l : List String) (s : State)
    (h : HandlersLive s) : HandlersLive (addNewProfilesToTray l s).1 := by
  unfold addNewProfilesToTray
  induction l generalizing s with
  | nil => exact h
  | cons p rest ih =>
    rw [forRange_cons]
    exact ih _ (addNewProfilesToTrayBody_handlersLive s p h)

/-- The remove loop starts and ends no task. -/
theorem removeDeletedProfilesFromTray_tasks (l : List String) (s : State) :
    (removeDeletedProfilesFromTray l s).1.tasks = s.tasks := by
  unfold removeDeletedProfilesFromTray
  generalize s.submenus.keys = ks
  induction ks generalizing s with
  | nil => rfl
  | cons k rest ih =>
    rw [forRange_cons]
    simp only [ih]
    by_cases hk : k ∈ l
    · rw [removeDeletedProfilesFromTrayBody_listed l s k hk]
    · by_cases h2 : k ∈ s.submenusToMenuItems <;>
        simp [removeDeletedProfilesFromTrayBody, ItemExists, hk, h2]

theorem removeDeletedProfilesFromTray_handlersLive (l : List String) (s : State)
    (h : HandlersLive s) : HandlersLive (removeDeletedProfilesFromTray l s).1 := by
  intro p hp
  rw [removeDeletedProfilesFromTray_tasks]
  exact h p ((mem_submenus_removeDeletedProfilesFromTray l s p).mp hp).1

theorem startStopHandler_state (env : Env) (iconData : Icon) (submenu : String)
    (m : MenuItem) (action : Int) (s : State) :
    (startStopHandler env iconData submenu m action s).1 = s := by
  rcases hr : (dispatch env action submenu).1 with _ | e
  · rw [startStopHandler_of_nil env iconData submenu m action s hr]
  · rw [startStopHandler_of_error env iconData submenu m action s e hr]

/-- In every state the tray goes through, every tracked profile has its two
click handlers among the started tasks. -/
theorem Reachable_handlersLive (env : Env) (s : State) (h : Reachable env s) :
    HandlersLive s := by
  induction h with
  | ready n l => exact OnReady_handlersLive l n
  | add s l _ ih => exact addNewProfilesToTray_handlersLive l s ih
  | remove s l _ ih => exact removeDeletedProfilesFromTray_handlersLive l s ih
  | update s _ ih => rw [updateProfileStatus_state]; exact ih
  | click s iconData submenu m action _ _ ih => rw [startStopHandler_state]; exact ih

/-- C10: let p be a profile tracked in a state the tray goes through (after
`OnReady`, after an add pass, or after any further pass or click), and let a
pass of `removeDeletedProfilesFromTray` run over a listing without p.  The pass
leaves the list of started tasks as it was, so the start handler and the stop
handler of p are still among them; p is no key of submenus any more and
`submenus[p]` yields nil; and a round of a handler of p whose dispatch returns
no error calls AddBitmap on that nil item.  In any state where p is a key of
submenus, the lookup finds the entry of p and the round calls AddBitmap on it. -/
theorem startStopHandler_outlives_entry (env : Env) (s : State) (p : String)
    (l : List String) (hs : Reachable env s) (hp : p ∈ s.submenus) (hl : p ∉ l) :
    (removeDeletedProfilesFromTray l s).1.tasks = s.tasks ∧
    (∃ m, Task.startStopHandler Icon.Running p m START_PROFILE ∈
      (removeDeletedProfilesFromTray l s).1.tasks) ∧
    (∃ m, Task.startStopHandler Icon.Stopped p m STOP_PROFILE ∈
      (removeDeletedProfilesFromTray l s).1.tasks) ∧
    p ∉ (removeDeletedProfilesFromTray l s).1.submenus ∧
    (removeDeletedProfilesFromTray l s).1.submenus.index p = none ∧
    (∀ (iconData : Icon) (m : MenuItem) (action : Int),
      (dispatch env action p).1 = none →
      startStopHandler env iconData p m action (removeDeletedProfilesFromTray l s).1 =
        ((removeDeletedProfilesFromTray l s).1,
         (dispatch env action p).2 ++
          [Event.Lock Mutex.submenusLock, Event.mapRead TrackMap.submenus p,
           Event.AddBitmap none iconData, Event.Unlock Mutex.submenusLock])) ∧
    (∀ (t : State), p ∈ t.submenus →
      ∃ v, t.submenus.lookup p = some v ∧ t.submenus.index p = v ∧
        ∀ (iconData : Icon) (m : MenuItem) (action : Int),
          (dispatch env action p).1 = none →
          startStopHandler env iconData p m action t =
            (t, (dispatch env action p).2 ++
              [Event.Lock Mutex.submenusLock, Event.mapRead TrackMap.submenus p,
               Event.AddBitmap v iconData, Event.Unlock Mutex.submenusLock])) := by
  have hlive := Reachable_handlersLive env s hs p hp
  have htasks := removeDeletedProfilesFromTray_tasks l s
  have hgone : p ∉ (removeDeletedProfilesFromTray l s).1.submenus := by
    intro h
    exact hl ((mem_submenus_removeDeletedProfilesFromTray l s p).mp h).2
  have hnil : (removeDeletedProfilesFromTray l s).1.submenus.index p = none := by
    unfold GoMap.index
    rw [AList.lookup_eq_none.mpr hgone]
  refine ⟨htasks, by rw [htasks]; exact hlive.1, by rw [htasks]; exact hlive.2, hgone, hnil,
    ?_, ?_⟩
  · intro iconData m action hd
    rw [startStopHandler_of_nil env iconData p m action _ hd, hnil]
  · intro t ht
    obtain ⟨v, hv⟩ := Option.isSome_iff_exists.mp (AList.lookup_isSome.mpr ht)
    have hidx : t.submenus.index p = v := by
      unfold GoMap.index
      rw [hv]
    refine ⟨v, hv, hidx, ?_⟩
    intro iconData m action hd
    rw [startStopHandler_of_nil env iconData p m action _ hd, hidx]

/-- C10, after `OnReady` with the one profile "dev" and a remove pass over the
empty listing, on a platform where the dispatch does nothing: the round of the
start handler of "dev" calls AddBitmap on the nil item. -/
theorem startStopHandler_outlives_entry_witness :
    startStopHandler (sampleEnv "linux" 0 ("", none) none ("", none)) Icon.Running "dev"
        (some 2) START_PROFILE
        (removeDeletedProfilesFromTray [] (OnReady ["dev"] (initState 0)).1).1 =
      ((removeDeletedProfilesFromTray [] (OnReady ["dev"] (initState 0)).1).1,
       (dispatch (sampleEnv "linux" 0 ("", none) none ("", none)) START_PROFILE "dev").2 ++
        [Event.Lock Mutex.submenusLock, Event.mapRead TrackMap.submenus "dev",
         Event.AddBitmap none Icon.Running, Event.Unlock Mutex.submenusLock]) :=
  (startStopHandler_outlives_entry (sampleEnv "linux" 0 ("", none) none ("", none))
    (OnReady ["dev"] (initState 0)).1 "dev" []
    (Reachable.ready 0 ["dev"]) (by decide) (by decide)).2.2.2.2.2.1
    Icon.Running (some 2) START_PROFILE (by decide)

end Systemtray
